import Mathlib

/-!
Verification development for the secure-grid-ai hybrid phishing classifier.

The definitions below are a shallow embedding of the three Supabase edge
functions of the repository:

* the logo analyzer (`calcLogoHeuristic` and its `serve` handler),
* the hybrid URL analyzer (`extractUrlFeatures`, `calculateRiskScore` and its
  `serve` handler), and
* the hybrid email analyzer (`calculateEmailRiskScore` and its `serve`
  handler; the email feature extractor itself is not consulted by any claim,
  so the handler is parameterized by the already-extracted feature record).

Modelling conventions:

* JavaScript numbers are modelled by `JsNum`, an unreduced fraction of
  integers with exact rational arithmetic (`JsNum.toRat` maps it to `ℚ`).
  The scores of this program stay far from any floating-point rounding
  boundary, so exact rational arithmetic is a faithful model of the float
  arithmetic the code performs.  All operations keep the denominator
  positive.  Purely integer-valued computations (the logo heuristic) use
  `Int` directly.
* JavaScript truthiness of optional strings (`undefined` and `""` are
  falsy) is `truthy`; `x || d` on numbers (`0` is falsy) is `JsNum.orD`.
* The oracle (the external AI gateway) is the environment: one constructor
  of `OracleOutcome` per observable class of outcome of the `fetch` call
  (network-level rejection, non-2xx status, 2xx whose content contains a
  parseable JSON block, contains none, or contains an unparsable block).
* `new URL(...)` is modelled by `parseUrl`, a simplified WHATWG parser for
  the scheme://user@host:port/path?query shape that agrees with the browser
  parser on the simple URLs used as concrete inputs below; parse failure is
  `none` (the code catches the exception).
* `crypto.getRandomValues(new Uint8Array(32))` is an environment parameter:
  a `List (Fin 256)` of bytes; `new Date().toISOString()` is a string
  parameter.
-/

namespace SecureGrid

/-- Exact JavaScript-number model: an unreduced fraction `num / den`.
All constructors and operations below keep `den` positive. -/
structure JsNum where
  num : Int
  den : Int
deriving DecidableEq

def JsNum.ofInt (n : Int) : JsNum := ⟨n, 1⟩

/-- The rational value of a `JsNum`. -/
def JsNum.toRat (x : JsNum) : ℚ := (x.num : ℚ) / (x.den : ℚ)

def JsNum.add (a b : JsNum) : JsNum := ⟨a.num * b.den + b.num * a.den, a.den * b.den⟩

def JsNum.sub (a b : JsNum) : JsNum := ⟨a.num * b.den - b.num * a.den, a.den * b.den⟩

def JsNum.mul (a b : JsNum) : JsNum := ⟨a.num * b.num, a.den * b.den⟩

/-- Division; only used with divisors whose numerator is nonzero. -/
def JsNum.div (a b : JsNum) : JsNum :=
  if b.num < 0 then ⟨-(a.num * b.den), a.den * (-b.num)⟩ else ⟨a.num * b.den, a.den * b.num⟩

def JsNum.ble (a b : JsNum) : Bool := decide (a.num * b.den ≤ b.num * a.den)

def JsNum.blt (a b : JsNum) : Bool := decide (a.num * b.den < b.num * a.den)

/-- Value equality (the fractions are unreduced, so structural equality is
too fine); models JavaScript `===` on numbers. -/
def JsNum.beqv (a b : JsNum) : Bool := decide (a.num * b.den = b.num * a.den)

def JsNum.minJ (a b : JsNum) : JsNum := if a.ble b then a else b

def JsNum.maxJ (a b : JsNum) : JsNum := if a.ble b then b else a

def JsNum.absJ (a : JsNum) : JsNum := if a.blt (JsNum.ofInt 0) then ⟨-a.num, a.den⟩ else a

/-- Models `Math.round` (round half toward positive infinity). -/
def JsNum.round (a : JsNum) : JsNum :=
  JsNum.ofInt ((a.add ⟨1, 2⟩).num.fdiv (a.add ⟨1, 2⟩).den)

/-- Models `x || d` for a possibly-absent number `x` (JavaScript treats the
number `0` as falsy, so `0 || d` is `d`). -/
def JsNum.orD (x : Option JsNum) (d : JsNum) : JsNum :=
  match x with
  | none => d
  | some v => if v.beqv (JsNum.ofInt 0) then d else v

theorem JsNum.toRat_ofInt (n : Int) : (JsNum.ofInt n).toRat = (n : ℚ) := by
  simp [JsNum.toRat, JsNum.ofInt]

theorem JsNum.den_add {a b : JsNum} (ha : 0 < a.den) (hb : 0 < b.den) :
    0 < (a.add b).den := by
  simp only [JsNum.add]; positivity

theorem JsNum.den_sub {a b : JsNum} (ha : 0 < a.den) (hb : 0 < b.den) :
    0 < (a.sub b).den := by
  simp only [JsNum.sub]; positivity

theorem JsNum.den_mul {a b : JsNum} (ha : 0 < a.den) (hb : 0 < b.den) :
    0 < (a.mul b).den := by
  simp only [JsNum.mul]; positivity

theorem JsNum.toRat_add {a b : JsNum} (ha : 0 < a.den) (hb : 0 < b.den) :
    (a.add b).toRat = a.toRat + b.toRat := by
  have ha' : (a.den : ℚ) ≠ 0 := by exact_mod_cast ha.ne'
  have hb' : (b.den : ℚ) ≠ 0 := by exact_mod_cast hb.ne'
  simp only [JsNum.add, JsNum.toRat]
  push_cast
  field_simp

theorem JsNum.toRat_sub {a b : JsNum} (ha : 0 < a.den) (hb : 0 < b.den) :
    (a.sub b).toRat = a.toRat - b.toRat := by
  have ha' : (a.den : ℚ) ≠ 0 := by exact_mod_cast ha.ne'
  have hb' : (b.den : ℚ) ≠ 0 := by exact_mod_cast hb.ne'
  simp only [JsNum.sub, JsNum.toRat]
  push_cast
  field_simp
  ring_nf

theorem JsNum.toRat_mul {a b : JsNum} (ha : 0 < a.den) (hb : 0 < b.den) :
    (a.mul b).toRat = a.toRat * b.toRat := by
  have ha' : (a.den : ℚ) ≠ 0 := by exact_mod_cast ha.ne'
  have hb' : (b.den : ℚ) ≠ 0 := by exact_mod_cast hb.ne'
  simp only [JsNum.mul, JsNum.toRat]
  push_cast
  field_simp

theorem JsNum.toRat_div_pos {a b : JsNum} (ha : 0 < a.den) (hb : 0 < b.den)
    (hn : 0 < b.num) : (a.div b).toRat = a.toRat / b.toRat := by
  have ha' : (a.den : ℚ) ≠ 0 := by exact_mod_cast ha.ne'
  have hb' : (b.den : ℚ) ≠ 0 := by exact_mod_cast hb.ne'
  have hn' : (b.num : ℚ) ≠ 0 := by exact_mod_cast hn.ne'
  simp only [JsNum.div, if_neg (not_lt.mpr hn.le), JsNum.toRat]
  push_cast
  field_simp

theorem JsNum.den_div_pos {a b : JsNum} (ha : 0 < a.den) (hn : 0 < b.num) :
    0 < (a.div b).den := by
  simp only [JsNum.div, if_neg (not_lt.mpr hn.le)]
  positivity

theorem JsNum.ble_iff {a b : JsNum} (ha : 0 < a.den) (hb : 0 < b.den) :
    a.ble b = true ↔ a.toRat ≤ b.toRat := by
  have ha' : (0 : ℚ) < (a.den : ℚ) := by exact_mod_cast ha
  have hb' : (0 : ℚ) < (b.den : ℚ) := by exact_mod_cast hb
  rw [JsNum.toRat, JsNum.toRat, div_le_div_iff₀ ha' hb']
  simp only [JsNum.ble, decide_eq_true_iff]
  constructor
  · intro h
    exact_mod_cast h
  · intro h
    exact_mod_cast h

theorem JsNum.blt_iff {a b : JsNum} (ha : 0 < a.den) (hb : 0 < b.den) :
    a.blt b = true ↔ a.toRat < b.toRat := by
  have ha' : (0 : ℚ) < (a.den : ℚ) := by exact_mod_cast ha
  have hb' : (0 : ℚ) < (b.den : ℚ) := by exact_mod_cast hb
  rw [JsNum.toRat, JsNum.toRat, div_lt_div_iff₀ ha' hb']
  simp only [JsNum.blt, decide_eq_true_iff]
  constructor
  · intro h
    exact_mod_cast h
  · intro h
    exact_mod_cast h

theorem JsNum.den_minJ {a b : JsNum} (ha : 0 < a.den) (hb : 0 < b.den) :
    0 < (a.minJ b).den := by
  unfold JsNum.minJ; split <;> assumption

theorem JsNum.den_maxJ {a b : JsNum} (ha : 0 < a.den) (hb : 0 < b.den) :
    0 < (a.maxJ b).den := by
  unfold JsNum.maxJ; split <;> assumption

theorem JsNum.toRat_minJ {a b : JsNum} (ha : 0 < a.den) (hb : 0 < b.den) :
    (a.minJ b).toRat = min a.toRat b.toRat := by
  unfold JsNum.minJ
  by_cases h : a.ble b = true
  · rw [if_pos h, min_eq_left ((JsNum.ble_iff ha hb).mp h)]
  · have h' : ¬ a.toRat ≤ b.toRat := fun hh => h ((JsNum.ble_iff ha hb).mpr hh)
    rw [if_neg (by simpa using h), min_eq_right (le_of_not_le h')]

theorem JsNum.toRat_maxJ {a b : JsNum} (ha : 0 < a.den) (hb : 0 < b.den) :
    (a.maxJ b).toRat = max a.toRat b.toRat := by
  unfold JsNum.maxJ
  by_cases h : a.ble b = true
  · rw [if_pos h, max_eq_right ((JsNum.ble_iff ha hb).mp h)]
  · have h' : ¬ a.toRat ≤ b.toRat := fun hh => h ((JsNum.ble_iff ha hb).mpr hh)
    rw [if_neg (by simpa using h), max_eq_left (le_of_not_le h')]

/-! String helpers mirroring the JavaScript string operations the source
uses.  They work on `String.data` (the character list) so that every
operation reduces structurally in the kernel.  All strings appearing in the
program are ASCII, for which `Char.toLower` agrees with
`String.prototype.toLowerCase`. -/

/-- JavaScript truthiness of an optional string: `undefined` and `""` are
falsy, every other string is truthy. -/
def truthy : Option String → Bool
  | none => false
  | some s => !(decide (s = ""))

/-- Models `x || ""` (and more generally reading an optional string with
the empty string as the falsy default). -/
def getStr : Option String → String
  | none => ""
  | some s => s

def lowerStr (s : String) : String := ⟨s.data.map Char.toLower⟩

def isPrefixL : List Char → List Char → Bool
  | [], _ => true
  | _ :: _, [] => false
  | a :: as, b :: bs => a == b && isPrefixL as bs

/-- Models `hay.includes(pat)` (substring containment). -/
def containsSub : List Char → List Char → Bool
  | [], pat => pat.isEmpty
  | c :: t, pat => isPrefixL pat (c :: t) || containsSub t pat

def strIncludes (s pat : String) : Bool := containsSub s.data pat.data

/-- Models `s.startsWith(p)`. -/
def strStartsWith (s p : String) : Bool := isPrefixL p.data s.data

/-- Models `s.endsWith(p)`. -/
def strEndsWith (s p : String) : Bool := isPrefixL p.data.reverse s.data.reverse

/-- Number of occurrences of a character, modelling `(s.match(/c/g) || []).length`. -/
def countChar (s : String) (c : Char) : Nat := s.data.count c

def countDigits (s : String) : Nat := (s.data.filter Char.isDigit).length

/-- Deduplication keeping the first occurrence of each element, in order:
the semantics of `[...new Set(xs)]`. -/
def dedupAux {α : Type} [DecidableEq α] : List α → List α → List α
  | _, [] => []
  | seen, x :: xs => if x ∈ seen then dedupAux seen xs else x :: dedupAux (x :: seen) xs

def dedupF {α : Type} [DecidableEq α] (xs : List α) : List α := dedupAux [] xs

/-- Matches one to three decimal digits at the head of the list, returning
the possible remainders (regex backtracking explores all of them). -/
def digits13 : List Char → List (List Char)
  | [] => []
  | c1 :: r1 =>
    if c1.isDigit then
      match r1 with
      | [] => [[]]
      | c2 :: r2 =>
        if c2.isDigit then
          match r2 with
          | [] => [[], r2]
          | c3 :: r3 => if c3.isDigit then [r3, r2, r1] else [r2, r1]
        else [r1]
    else []

/-- Matches `\d{1,3}\.\d{1,3}\.\d{1,3}\.\d{1,3}` at the head of the list. -/
def ipAt (l : List Char) : Bool :=
  (digits13 l).any fun r1 =>
    match r1 with
    | '.' :: r1' =>
      (digits13 r1').any fun r2 =>
        match r2 with
        | '.' :: r2' =>
          (digits13 r2').any fun r3 =>
            match r3 with
            | '.' :: r3' => !(digits13 r3').isEmpty
            | _ => false
        | _ => false
    | _ => false

def ipAnywhere : List Char → Bool
  | [] => false
  | c :: t => ipAt (c :: t) || ipAnywhere t

/-- Models `/\d{1,3}\.\d{1,3}\.\d{1,3}\.\d{1,3}/.test(s)`. -/
def hasIpLiteral (s : String) : Bool := ipAnywhere s.data

def isHexDigit (c : Char) : Bool :=
  c.isDigit || ('a' ≤ c && c ≤ 'f') || ('A' ≤ c && c ≤ 'F')

def encAnywhere : List Char → Bool
  | [] => false
  | c :: t =>
    (c == '%' && (match t with
      | a :: b :: _ => isHexDigit a && isHexDigit b
      | _ => false)) || encAnywhere t

/-- Models `/%[0-9a-fA-F]{2}/.test(s)`. -/
def hasEncodedChar (s : String) : Bool := encAnywhere s.data

/-! Exact characterization of the Shannon-entropy threshold test.  The
source computes `calculateEntropy(str)` (Shannon entropy of the character
frequency distribution, in bits) and later tests `entropy > 4.5`.  For a
string of length `n` with character multiplicities `n_c`, the test
`-Σ (n_c/n)·log2(n_c/n) > 4.5` is equivalent (the transformations
`x ↦ 2^(2·n·x)` being strictly monotone) to the integer inequality
`n^(2n) > 2^(9n) · Π n_c^(2·n_c)`, which is what `entropyGt45` decides
exactly, with no floating point. -/

def charMultiplicities (s : String) : List Nat :=
  (dedupF s.data).map fun c => s.data.count c

def entropyGt45 (s : String) : Bool :=
  let n := s.data.length
  decide (2 ^ (9 * n) * ((charMultiplicities s).map fun c => c ^ (2 * c)).prod < n ^ (2 * n))

/-- Models `calculateConsonantRatio` (consonants over letters, `0` when the
string has no letters). -/
def consonantRatioOf (s : String) : ℚ :=
  let consonants := (s.data.filter fun c =>
    strIncludes "bcdfghjklmnpqrstvwxyz" (⟨[c.toLower]⟩ : String)).length
  let letters := (s.data.filter fun c => ('a' ≤ c.toLower && c.toLower ≤ 'z')).length
  if 0 < letters then (consonants : ℚ) / (letters : ℚ) else 0

/-! A simplified model of the WHATWG `new URL(...)` parser, covering the
`scheme://userinfo@host:port/path?query#fragment` shape.  It agrees with
the browser parser on the well-formed http(s) URLs used as concrete inputs
in this development; sources of parse failure (which the code turns into
its fallback paths) are: no colon, missing `//`, an empty or
forbidden-character host, or a non-numeric / out-of-range port. -/

structure UrlParts where
  protocol : String
  hostname : String
  port : Option Nat
  pathname : String
  search : String
deriving DecidableEq

def forbiddenHostChar (c : Char) : Bool :=
  c == ' ' || c == '\t' || c == '\n' || c == '#' || c == '/' || c == ':' ||
  c == '?' || c == '@' || c == '[' || c == ']' || c == '\\' || c == '^' ||
  c == '|' || c == '<' || c == '>' || c == '"'

def digitsToNat (l : List Char) : Nat :=
  l.foldl (fun n c => n * 10 + (c.toNat - 48)) 0

/-- The part of `l` after the last occurrence of `sep` (all of `l` when
`sep` does not occur). -/
def afterLast (sep : Char) (l : List Char) : List Char :=
  (l.reverse.takeWhile fun c => !(c == sep)).reverse

def parseHostPort (scheme : String) (hp : List Char) :
    Option (String × Option Nat) :=
  let build : List Char → Option Nat → Option (String × Option Nat) := fun host port =>
    if host.isEmpty then none
    else if host.any forbiddenHostChar then none
    else some (⟨host.map Char.toLower⟩, port)
  if hp.contains ':' then
    let portChars := (hp.reverse.takeWhile fun c => !(c == ':')).reverse
    let host := hp.take (hp.length - portChars.length - 1)
    if portChars.all Char.isDigit then
      if portChars.isEmpty then build host none
      else
        let p := digitsToNat portChars
        if 65535 < p then none
        else if (scheme = "https" ∧ p = 443) ∨ (scheme = "http" ∧ p = 80) then
          build host none
        else build host (some p)
    else none
  else build hp none

def parseUrl (s : String) : Option UrlParts :=
  let cs := s.data
  let scheme := cs.takeWhile fun c => !(c == ':')
  if scheme.isEmpty ∨ ¬ (scheme.all Char.isAlpha) then none
  else
    match cs.drop scheme.length with
    | ':' :: '/' :: '/' :: rest =>
      let auth := rest.takeWhile fun c => !(c == '/' || c == '?' || c == '#')
      let afterAuth := rest.drop auth.length
      let hp := afterLast '@' auth
      match parseHostPort (⟨scheme.map Char.toLower⟩ : String) hp with
      | none => none
      | some (host, port) =>
        let pathChars := afterAuth.takeWhile fun c => !(c == '?' || c == '#')
        let afterPath := afterAuth.drop pathChars.length
        let pathname : List Char := if pathChars.isEmpty then ['/'] else pathChars
        let search : List Char :=
          match afterPath with
          | '?' :: q =>
            let qc := q.takeWhile fun c => !(c == '#')
            if qc.isEmpty then [] else '?' :: qc
          | _ => []
        some ⟨⟨(scheme.map Char.toLower) ++ [':']⟩, host, port, ⟨pathname⟩, ⟨search⟩⟩
    | _ => none

/-! The logo analyzer (`analyze-logo`): known safe list, heuristic and
`serve` handler.  All of its numbers are integers, so scores use `Int`. -/

def SAFE_DOMAINS : List String := ["netflix.com", "amazon.com", "paypal.com"]

def PHISH_KEYWORDS : List String := ["phish", "fake", "scam", "suspicious"]

/-- Models `domainFromUrl`: the lowercase hostname of the URL, `""` when
`new URL(url)` throws. -/
def domainFromUrl (url : String) : String :=
  match parseUrl url with
  | some p => lowerStr p.hostname
  | none => ""

/-- Models `hasSafeDomain`. -/
def hasSafeDomain (url : String) : Bool :=
  let host := domainFromUrl url
  SAFE_DOMAINS.any fun d => decide (host = d) || strEndsWith host ("." ++ d)

structure LogoInput where
  imageUrl : Option String
  base64Image : Option String
deriving DecidableEq

/-- The score-accumulation phase of `calcLogoHeuristic` (its lines up to the
verdict computation): the running `score` and `issues` after all four
checks, in source order. -/
def logoScoreIssues (input : LogoInput) : Int × List String :=
  let imageUrl := input.imageUrl
  let isLocal := truthy input.base64Image ||
    (truthy imageUrl && !(strStartsWith (getStr imageUrl) "http"))
  let url := lowerStr (getStr imageUrl)
  let st0 : Int × List String := (0, [])
  let st1 :=
    if truthy imageUrl = true ∧ (PHISH_KEYWORDS.any fun kw => strIncludes url kw) = true
    then (st0.1 + 50, st0.2 ++ ["URL contains phishing keywords"]) else st0
  let st2 :=
    if isLocal = true
    then (st1.1 + 30, st1.2 ++ ["Local/base64 image (source cannot be verified)"]) else st1
  let st3 :=
    if truthy imageUrl = true ∧
        (strIncludes url "blur" = true ∨ (getStr imageUrl).data.length < 50)
    then (st2.1 + 20, st2.2 ++ ["Low-signal / potentially blurred image reference"]) else st2
  let looksLikePaypal := strIncludes url "paypal"
  let hostedOnPaypal :=
    if truthy imageUrl = true
    then strIncludes (domainFromUrl (getStr imageUrl)) "paypal" ||
      strIncludes (getStr imageUrl) "paypal.com"
    else false
  if looksLikePaypal = true ∧ truthy imageUrl = true ∧ hostedOnPaypal = false then
    (max st3.1 92, st3.2 ++ ["PayPal brand on non-official source"])
  else st3

structure LogoVerdict where
  verdict : String
  probability : Int
  issues : List String
  detectedBrand : Option String
deriving DecidableEq

/-- The brand lookup used in the safe branch of `calcLogoHeuristic`. -/
def logoBrandOf (url : String) : Option String :=
  if strIncludes url "netflix" then some "netflix"
  else if strIncludes url "amazon" then some "amazon"
  else if strIncludes url "paypal" then some "paypal"
  else none

/-- Models `calcLogoHeuristic` (heuristic scoring plus the verdict rules). -/
def calcLogoHeuristic (input : LogoInput) : LogoVerdict :=
  let imageUrl := input.imageUrl
  let url := lowerStr (getStr imageUrl)
  let looksLikePaypal := strIncludes url "paypal"
  let si := logoScoreIssues input
  if truthy imageUrl = true ∧ hasSafeDomain (getStr imageUrl) = true ∧ si.1 = 0 then
    ⟨"safe", 8, si.2, logoBrandOf url⟩
  else if si.1 = 0 then
    ⟨"unknown", 45, ["Unknown logo / insufficient signals"], none⟩
  else
    let probability := min 95 si.1
    ⟨if 30 < probability then "phishing" else "unknown", probability, si.2,
      if looksLikePaypal then some "paypal"
      else if strIncludes url "netflix" then some "netflix"
      else if strIncludes url "amazon" then some "amazon"
      else none⟩

/-! The request/response boundary shared by the three handlers. -/

/-- Outcome of a `serve` invocation: a success payload, a 400-style
validation error, or the generic 500 handler (whose message comes from the
thrown exception, i.e. from the environment). -/
inductive ServeResult (α : Type) where
  | ok (r : α)
  | clientError (msg : String)
  | serverError
deriving DecidableEq

def okElim {α β : Type} (f : α → β) : ServeResult α → Option β
  | .ok r => some (f r)
  | .clientError _ => none
  | .serverError => none

def isServerError {α : Type} : ServeResult α → Bool
  | .serverError => true
  | _ => false

def hexChar (n : Nat) : Char :=
  if n < 10 then Char.ofNat (48 + n) else Char.ofNat (87 + n)

/-- The two hex digits of one random byte:
`b.toString(16).padStart(2, "0")`. -/
def hexPair (b : Fin 256) : List Char := [hexChar (b.val / 16), hexChar (b.val % 16)]

/-- Models the simulated blockchain hash: `"0x"` followed by the hex
expansion of the 32 random bytes from `crypto.getRandomValues`. -/
def blockchainHashOf (rand : List (Fin 256)) : String :=
  ⟨'0' :: 'x' :: (rand.map hexPair).flatten⟩

structure LogoResponse where
  imageUrl : String
  result : String
  confidence : Int
  detectedBrand : Option String
  threatIndicators : List String
  method : String
  blockchainHash : String
  timestamp : String
deriving DecidableEq

/-- Models the `serve` handler of the logo analyzer.  `rand` is the byte
string drawn from `crypto.getRandomValues` and `now` the ISO timestamp. -/
def analyzeLogo (input : LogoInput) (rand : List (Fin 256)) (now : String) :
    ServeResult LogoResponse :=
  if truthy input.imageUrl = false ∧ truthy input.base64Image = false then
    .clientError "Image URL or base64 image is required"
  else
    let h := calcLogoHeuristic input
    .ok ⟨if truthy input.imageUrl then getStr input.imageUrl else "base64-image",
      h.verdict, h.probability, h.detectedBrand, dedupF h.issues,
      "heuristic-logo-v2", blockchainHashOf rand, now⟩

/-! The hybrid URL analyzer (`analyze-url`): feature extraction, rule-based
risk scoring, and the `serve` handler with the AI oracle. -/

/-- The fixed keyword dictionary of `extractUrlFeatures` (the source lists
`verify` twice; the duplicate is kept because `Array.prototype.filter`
keeps it). -/
def urlSuspiciousKeywords : List String :=
  ["login", "signin", "verify", "secure", "account", "update", "confirm",
   "banking", "password", "credential", "suspended", "unusual", "alert",
   "verify", "wallet", "paypal", "apple", "microsoft", "google", "facebook",
   "amazon", "netflix", "support", "help", "service", "billing", "payment",
   "authenticate", "validation", "security", "urgent", "immediately", "action",
   "required", "expire", "limited", "restore", "unlock", "reactivate"]

def urlSuspiciousTlds : List String :=
  [".xyz", ".top", ".tk", ".ml", ".ga", ".cf", ".gq", ".pw", ".cc",
   ".club", ".online", ".site", ".website", ".space", ".icu", ".buzz"]

/-- The URL feature record.  Compared to the source's `UrlFeatures`
interface, the two stored real-valued fields are represented as follows:
`entropy` (only ever consumed through the comparison `entropy > 4.5`) is
stored as the exact Boolean `entropyGt45` of that comparison, and
`digitRatio` / `consonantRatio` are recovered from the stored counts by
`digitRatioOf` / `consonantRatioOf` below — the record keeps `numDigits`
and `length`, from which the source computes them. -/
structure UrlFeatures where
  length : Nat
  numDots : Nat
  numHyphens : Nat
  numUnderscores : Nat
  numSlashes : Nat
  numDigits : Nat
  numAtSymbols : Nat
  hasHttps : Bool
  hasIpAddress : Bool
  hasSuspiciousTld : Bool
  hasSuspiciousKeywords : Bool
  hasEncodedChars : Bool
  domainLength : Nat
  pathLength : Nat
  queryLength : Nat
  numSubdomains : Nat
  hasPortNumber : Bool
  suspiciousKeywords : List String
  entropyGt45 : Bool
deriving DecidableEq

/-- Scheme defaulting before parsing:
`url.startsWith('http') ? url : 'https://' + url`. -/
def withScheme (url : String) : String :=
  if strStartsWith url "http" then url else "https://" ++ url

/-- Models `extractUrlFeatures`.  The `catch` branch of the source (taken
when `new URL` throws) produces the record with sentinel structural fields
and purely lexical features over the raw string. -/
def extractUrlFeatures (url : String) : UrlFeatures :=
  let lower := lowerStr url
  let found := urlSuspiciousKeywords.filter fun kw => strIncludes lower kw
  match parseUrl (withScheme url) with
  | none =>
    { length := url.data.length
      numDots := countChar url '.'
      numHyphens := countChar url '-'
      numUnderscores := countChar url '_'
      numSlashes := countChar url '/'
      numDigits := countDigits url
      numAtSymbols := countChar url '@'
      hasHttps := false
      hasIpAddress := hasIpLiteral url
      hasSuspiciousTld := urlSuspiciousTlds.any fun tld => strIncludes lower tld
      hasSuspiciousKeywords := urlSuspiciousKeywords.any fun kw => strIncludes lower kw
      hasEncodedChars := hasEncodedChar url
      domainLength := 0
      pathLength := 0
      queryLength := 0
      numSubdomains := 0
      hasPortNumber := false
      suspiciousKeywords := found
      entropyGt45 := entropyGt45 url }
  | some p =>
    { length := url.data.length
      numDots := countChar url '.'
      numHyphens := countChar url '-'
      numUnderscores := countChar url '_'
      numSlashes := countChar url '/'
      numDigits := countDigits url
      numAtSymbols := countChar url '@'
      hasHttps := decide (p.protocol = "https:")
      hasIpAddress := hasIpLiteral p.hostname
      hasSuspiciousTld := urlSuspiciousTlds.any fun tld => strEndsWith (lowerStr p.hostname) tld
      hasSuspiciousKeywords := decide (0 < found.length)
      hasEncodedChars := hasEncodedChar url
      domainLength := p.hostname.data.length
      pathLength := p.pathname.data.length
      queryLength := p.search.data.length
      numSubdomains := (countChar p.hostname '.' + 1) - 2
      hasPortNumber := p.port.isSome
      suspiciousKeywords := found
      entropyGt45 := entropyGt45 url }

/-- The `digitRatio` field the source stores in the record:
digit count over string length, which is JavaScript `0/0 = NaN` (modelled
as `none`) when the string is empty. -/
def digitRatioOf (f : UrlFeatures) : Option ℚ :=
  if f.length = 0 then none else some ((f.numDigits : ℚ) / (f.length : ℚ))

/-- The comparison `features.digitRatio > 0.3` of the rule scorer, decided
exactly on the stored counts: for a nonzero length, `d/n > 3/10` iff
`3·n < 10·d`; a NaN ratio (empty string) compares false, and then
`3·0 < 10·0` is false as well. -/
def digitRatioGt03 (f : UrlFeatures) : Bool := decide (3 * f.length < 10 * f.numDigits)

structure ScoreResult where
  score : JsNum
  threats : List String
deriving DecidableEq

/-- Models `list.join(', ')`. -/
def joinComma : List String → String
  | [] => ""
  | [x] => x
  | x :: y :: ys => x ++ ", " ++ joinComma (y :: ys)

/-- Models `calculateRiskScore`: the fixed additive weight table, applied
in source order, capped at 100. -/
def calculateRiskScore (f : UrlFeatures) : ScoreResult :=
  let st0 : JsNum × List String := (JsNum.ofInt 0, [])
  let st1 := if f.hasIpAddress
    then (st0.1.add (JsNum.ofInt 25), st0.2 ++ ["IP address used instead of domain name"]) else st0
  let st2 := if !f.hasHttps
    then (st1.1.add (JsNum.ofInt 10), st1.2 ++ ["Insecure HTTP connection"]) else st1
  let st3 := if f.hasSuspiciousTld
    then (st2.1.add (JsNum.ofInt 20), st2.2 ++ ["Suspicious top-level domain detected"]) else st2
  let st4 := if f.hasSuspiciousKeywords
    then (st3.1.add ((JsNum.ofInt 25).minJ (JsNum.ofInt (f.suspiciousKeywords.length * 8))),
      st3.2 ++ ["Phishing keywords detected: " ++
        joinComma (f.suspiciousKeywords.take 3)]) else st3
  let st5 := if 100 < f.length
    then (st4.1.add ((JsNum.ofInt 15).minJ
        (((JsNum.ofInt ((f.length : Int) - 100)).div (JsNum.ofInt 20)).mul (JsNum.ofInt 5))),
      st4.2 ++ ["Abnormally long URL"]) else st4
  let st6 := if 3 < f.numSubdomains
    then (st5.1.add ((JsNum.ofInt 15).minJ (JsNum.ofInt (((f.numSubdomains : Int) - 3) * 5))),
      st5.2 ++ ["Multiple subdomain levels detected"]) else st5
  let st7 := if 3 < f.numHyphens
    then (st6.1.add ((JsNum.ofInt 10).minJ (JsNum.ofInt (((f.numHyphens : Int) - 3) * 3))),
      st6.2 ++ ["Excessive hyphens in URL"]) else st6
  let st8 := if 0 < f.numAtSymbols
    then (st7.1.add (JsNum.ofInt 20),
      st7.2 ++ ["URL contains @ symbol (potential redirect attack)"]) else st7
  let st9 := if f.hasEncodedChars
    then (st8.1.add (JsNum.ofInt 10), st8.2 ++ ["URL contains encoded characters"]) else st8
  let st10 := if f.hasPortNumber
    then (st9.1.add (JsNum.ofInt 15), st9.2 ++ ["Non-standard port number in URL"]) else st9
  let st11 := if f.entropyGt45
    then (st10.1.add (JsNum.ofInt 10),
      st10.2 ++ ["High entropy domain (potentially auto-generated)"]) else st10
  let st12 := if digitRatioGt03 f
    then (st11.1.add (JsNum.ofInt 10), st11.2 ++ ["High ratio of digits in URL"]) else st11
  ⟨(JsNum.ofInt 100).minJ st12.1, st12.2⟩

/-- The parsed AI payload of the URL analyzer (`aiAnalysis`): fields are
optional because the regex-extracted JSON block may omit any of them;
`isPhishing` is the truthiness of the parsed field. -/
structure AiAnalysis where
  isPhishing : Bool
  confidence : Option JsNum
  reasoning : Option String
  additionalThreats : Option (List String)
deriving DecidableEq

/-- Observable outcome classes of the oracle interaction (`fetch` plus
reading and JSON-matching the response body), one constructor per class,
parameterized by the analyzer-specific payload type:
`netFail` — the `fetch` promise or the body read (`response.json()`)
rejects, so the exception escapes to the handler's outer `catch`;
`httpErr` — the response arrives with `ok === false` (non-2xx);
`jsonOf a` — 2xx and the `{...}` block of the content parses to `a`;
`noJson` — 2xx but the content contains no `{...}` block;
`badJson` — 2xx with a `{...}` block on which `JSON.parse` throws. -/
inductive OracleOutcome (α : Type) where
  | netFail
  | httpErr
  | jsonOf (a : α)
  | noJson
  | badJson
deriving DecidableEq

/-- The combining step `aiScore = isPhishing ? 50 + (confidence || 50)/2
: 50 - (confidence || 50)/2`, shared verbatim by the URL and email
analyzers. -/
def aiScoreOf (isPhishing : Bool) (confidence : Option JsNum) : JsNum :=
  if isPhishing then
    (JsNum.ofInt 50).add ((JsNum.orD confidence (JsNum.ofInt 50)).div (JsNum.ofInt 2))
  else
    (JsNum.ofInt 50).sub ((JsNum.orD confidence (JsNum.ofInt 50)).div (JsNum.ofInt 2))

/-- The threshold policy
`combined >= 50 ? "phishing" : combined >= 25 ? "suspicious" : "safe"`,
shared verbatim by the URL and email analyzers (the URL analyzer also
applies it to the rule-based score alone in its degraded branch). -/
def verdictOf (c : JsNum) : String :=
  if (JsNum.ofInt 50).ble c then "phishing"
  else if (JsNum.ofInt 25).ble c then "suspicious"
  else "safe"

/-- The success payload of the URL analyzer.  `aiScore`, `combinedScore`,
`blockchainHash` and `timestamp` are optional because the degraded
(rule-based only) response includes none of them (`aiAnalysis: null` and no
hash/timestamp fields at all). -/
structure UrlResponse where
  url : String
  result : String
  confidence : JsNum
  threatIndicators : List String
  features : UrlFeatures
  ruleBasedScore : JsNum
  aiScore : Option JsNum
  combinedScore : Option JsNum
  method : String
  blockchainHash : Option String
  timestamp : Option String
deriving DecidableEq

/-- The hybrid (2xx) tail of the URL `serve` handler, with `a` the
`aiAnalysis` object obtained from the response content. -/
def urlHybridResponse (url : String) (features : UrlFeatures) (rb : ScoreResult)
    (a : AiAnalysis) (rand : List (Fin 256)) (now : String) : ServeResult UrlResponse :=
  let aiScore := aiScoreOf a.isPhishing a.confidence
  let combined := (rb.score.mul ⟨2, 5⟩).add (aiScore.mul ⟨3, 5⟩)
  let finalConfidence := JsNum.round
    (if (JsNum.ofInt 20).blt rb.score || a.isPhishing
     then combined.maxJ (JsNum.orD a.confidence (JsNum.ofInt 70))
     else ((JsNum.ofInt 100).sub combined).minJ (JsNum.ofInt 95))
  let result := verdictOf combined
  let allThreats := rb.threats ++ a.additionalThreats.getD [] ++
    (if truthy a.reasoning = true ∧ result ≠ "safe" then [getStr a.reasoning] else [])
  .ok ⟨url, result,
    (if result = "safe" then finalConfidence
     else ((JsNum.ofInt 100).sub finalConfidence).add (JsNum.ofInt 50)),
    dedupF allThreats, features, rb.score,
    some (JsNum.round aiScore), some (JsNum.round combined), "hybrid-ai",
    some (blockchainHashOf rand), some now⟩

/-- Models the `serve` handler of the URL analyzer.  `hasKey` is whether
the `LOVABLE_API_KEY` environment variable is set (its absence is thrown
and caught by the outer `catch`), `o` the oracle outcome, `rand` the bytes
for the simulated hash and `now` the ISO timestamp. -/
def analyzeUrl (url : String) (hasKey : Bool) (o : OracleOutcome AiAnalysis)
    (rand : List (Fin 256)) (now : String) : ServeResult UrlResponse :=
  if url = "" then .clientError "URL is required"
  else if !hasKey then .serverError
  else
    let features := extractUrlFeatures url
    let rb := calculateRiskScore features
    match o with
    | .netFail => .serverError
    | .httpErr =>
      .ok ⟨url, verdictOf rb.score,
        (JsNum.ofInt 100).sub (((JsNum.ofInt 50).sub rb.score).absJ),
        rb.threats, features, rb.score, none, none, "rule-based", none, none⟩
    | .jsonOf a => urlHybridResponse url features rb a rand now
    | .noJson => urlHybridResponse url features rb ⟨false, none, none, none⟩ rand now
    | .badJson => urlHybridResponse url features rb
        ⟨false, some (JsNum.ofInt 50), some "Unable to parse AI response", none⟩ rand now

/-! The hybrid email analyzer (`analyze-email`).  The claims only concern
its combining step, so its `serve` handler is parameterized by the feature
record that `extractEmailFeatures(sender, subject, body)` would produce
(the extractor's link-regex machinery is not embedded); the rule scorer
`calculateEmailRiskScore` and everything after it are embedded in full. -/

/-- The per-brand official-domain table (`legitimateDomains`) of the email
analyzer — the only official-domain table in the repository. -/
def legitimateDomains (brand : String) : List String :=
  if brand = "paypal" then ["paypal.com", "paypal.co.uk"]
  else if brand = "amazon" then ["amazon.com", "amazon.co.uk", "amazon.in", "amazon.de"]
  else if brand = "apple" then ["apple.com", "icloud.com"]
  else if brand = "microsoft" then ["microsoft.com", "outlook.com", "live.com", "hotmail.com"]
  else if brand = "google" then ["google.com", "gmail.com"]
  else if brand = "netflix" then ["netflix.com"]
  else if brand = "facebook" then ["facebook.com", "fb.com"]
  else []

structure EmailFeatures where
  senderDomain : String
  senderUser : String
  isSpoofedDomain : Bool
  hasUrgencyKeywords : Bool
  urgencyCount : Nat
  hasVerificationKeywords : Bool
  hasThreateningLanguage : Bool
  hasSuspiciousLinks : Bool
  linkCount : Nat
  suspiciousLinks : List String
  hasAttachmentMentions : Bool
  hasMoneyRelatedContent : Bool
  hasBrandImpersonation : Bool
  impersonatedBrands : List String
  grammarScore : Int
  sentimentScore : Int
deriving DecidableEq

/-- Models `calculateEmailRiskScore`: the fixed additive weight table of
the email analyzer, in source order, capped at 100. -/
def calculateEmailRiskScore (f : EmailFeatures) : ScoreResult :=
  let st0 : JsNum × List String := (JsNum.ofInt 0, [])
  let st1 := if f.isSpoofedDomain
    then (st0.1.add (JsNum.ofInt 30),
      st0.2 ++ ["Spoofed sender domain detected: " ++ f.senderDomain]) else st0
  let st2 := if f.hasBrandImpersonation
    then (st1.1.add (JsNum.ofInt 25),
      st1.2 ++ ["Brand impersonation attempt: " ++ joinComma f.impersonatedBrands]) else st1
  let st3 := if f.hasUrgencyKeywords
    then (st2.1.add ((JsNum.ofInt 20).minJ (JsNum.ofInt ((f.urgencyCount : Int) * 5))),
      st2.2 ++ ["Urgency manipulation detected (" ++ toString f.urgencyCount ++ " keywords)"])
    else st2
  let st4 := if f.hasVerificationKeywords
    then (st3.1.add (JsNum.ofInt 15),
      st3.2 ++ ["Credential harvesting language detected"]) else st3
  let st5 := if f.hasThreateningLanguage
    then (st4.1.add (JsNum.ofInt 20),
      st4.2 ++ ["Threatening/fear-based language detected"]) else st4
  let st6 := if f.hasSuspiciousLinks
    then (st5.1.add (JsNum.ofInt 20),
      st5.2 ++ ["Suspicious links found: " ++ toString f.suspiciousLinks.length]) else st5
  let st7 := if f.hasMoneyRelatedContent && (f.hasUrgencyKeywords || f.hasThreateningLanguage)
    then (st6.1.add (JsNum.ofInt 15),
      st6.2 ++ ["Financial urgency pressure tactics"]) else st6
  let st8 := if f.grammarScore < 60
    then (st7.1.add (JsNum.ofInt 10),
      st7.2 ++ ["Poor grammar quality (common in phishing)"]) else st7
  ⟨(JsNum.ofInt 100).minJ st8.1, st8.2⟩

/-- The parsed AI payload of the email analyzer (its schema uses `tactics`
and `redFlags` instead of `additionalThreats`). -/
structure EmailAiAnalysis where
  isPhishing : Bool
  confidence : Option JsNum
  reasoning : Option String
  tactics : Option (List String)
  redFlags : Option (List String)
deriving DecidableEq

/-- The default `aiAnalysis` object of the email analyzer, retained
whenever the oracle response is non-2xx, contains no JSON block, or its
block fails to parse. -/
def emailDefaultAnalysis : EmailAiAnalysis :=
  ⟨false, some (JsNum.ofInt 50), some "", some [], some []⟩

structure EmailResponse where
  sender : String
  subject : String
  result : String
  confidence : JsNum
  threatIndicators : List String
  ruleBasedScore : JsNum
  aiScore : JsNum
  combinedScore : JsNum
  method : String
  blockchainHash : String
  timestamp : String
deriving DecidableEq

/-- Models the `serve` handler of the email analyzer, with `features`
standing for `extractEmailFeatures(sender, subject, body)`.  Unlike the
URL analyzer, a non-2xx oracle response is absorbed inline (the default
analysis object is kept and the hybrid tail still runs); only a
network-level rejection escapes to the outer `catch`. -/
def analyzeEmail (sender subject body : String) (features : EmailFeatures)
    (hasKey : Bool) (o : OracleOutcome EmailAiAnalysis) (rand : List (Fin 256))
    (now : String) : ServeResult EmailResponse :=
  if sender = "" ∨ subject = "" ∨ body = "" then
    .clientError "Sender, subject, and body are required"
  else if !hasKey then .serverError
  else
    match o with
    | .netFail => .serverError
    | _ =>
      let a := match o with
        | .jsonOf a => a
        | _ => emailDefaultAnalysis
      let rb := calculateEmailRiskScore features
      let aiScore := aiScoreOf a.isPhishing a.confidence
      let combined := (rb.score.mul ⟨2, 5⟩).add (aiScore.mul ⟨3, 5⟩)
      let result := verdictOf combined
      let confidence := JsNum.round
        (if result = "safe" then (JsNum.ofInt 100).sub combined
         else (JsNum.ofInt 98).minJ (combined.add (JsNum.ofInt 20)))
      let allThreats := rb.threats ++ a.tactics.getD [] ++ a.redFlags.getD [] ++
        (if truthy a.reasoning = true ∧ result ≠ "safe" then [getStr a.reasoning] else [])
      .ok ⟨sender, subject, result, confidence, (dedupF allThreats).take 8,
        rb.score, JsNum.round aiScore, JsNum.round combined, "hybrid-email-ai",
        blockchainHashOf rand, now⟩

/-! General lemmas about the `[...new Set(xs)]` model. -/

theorem dedupAux_sublist {α : Type} [DecidableEq α] (xs : List α) :
    ∀ seen : List α, List.Sublist (dedupAux seen xs) xs := by
  induction xs with
  | nil => intro seen; simp [dedupAux]
  | cons x t ih =>
    intro seen
    by_cases h : x ∈ seen
    · rw [dedupAux, if_pos h]
      exact (ih seen).cons x
    · rw [dedupAux, if_neg h]
      exact (ih (x :: seen)).cons₂ x

theorem dedupAux_mem {α : Type} [DecidableEq α] (a : α) (xs : List α) :
    ∀ seen : List α, a ∈ dedupAux seen xs ↔ a ∈ xs ∧ a ∉ seen := by
  induction xs with
  | nil => intro seen; simp [dedupAux]
  | cons x t ih =>
    intro seen
    by_cases h : x ∈ seen
    · rw [dedupAux, if_pos h, ih seen]
      constructor
      · rintro ⟨h1, h2⟩
        exact ⟨List.mem_cons_of_mem x h1, h2⟩
      · rintro ⟨h1, h2⟩
        rcases List.mem_cons.mp h1 with rfl | h1
        · exact absurd h h2
        · exact ⟨h1, h2⟩
    · rw [dedupAux, if_neg h]
      constructor
      · intro hm
        rcases List.mem_cons.mp hm with rfl | hm
        · exact ⟨List.mem_cons_self a t, h⟩
        · have := (ih (x :: seen)).mp hm
          exact ⟨List.mem_cons_of_mem x this.1,
            fun hs => this.2 (List.mem_cons_of_mem x hs)⟩
      · rintro ⟨h1, h2⟩
        rcases List.mem_cons.mp h1 with rfl | h1
        · exact List.mem_cons_self a _
        · by_cases hax : a = x
          · subst hax; exact List.mem_cons_self a _
          · exact List.mem_cons_of_mem x ((ih (x :: seen)).mpr
              ⟨h1, fun hs => (List.mem_cons.mp hs).elim hax h2⟩)

theorem dedupAux_nodup {α : Type} [DecidableEq α] (xs : List α) :
    ∀ seen : List α, (dedupAux seen xs).Nodup := by
  induction xs with
  | nil => intro seen; simp [dedupAux]
  | cons x t ih =>
    intro seen
    by_cases h : x ∈ seen
    · rw [dedupAux, if_pos h]
      exact ih seen
    · rw [dedupAux, if_neg h]
      refine List.nodup_cons.mpr ⟨?_, ih (x :: seen)⟩
      intro hm
      exact ((dedupAux_mem x t (x :: seen)).mp hm).2 (List.mem_cons_self x seen)

theorem dedupF_nodup {α : Type} [DecidableEq α] (xs : List α) : (dedupF xs).Nodup :=
  dedupAux_nodup xs []

theorem dedupF_sublist {α : Type} [DecidableEq α] (xs : List α) : List.Sublist (dedupF xs) xs :=
  dedupAux_sublist xs []

theorem dedupF_mem {α : Type} [DecidableEq α] (a : α) (xs : List α) :
    a ∈ dedupF xs ↔ a ∈ xs := by
  rw [dedupF, dedupAux_mem]
  simp

/-! The claim theorems. -/

/-- Claim C4: the verdict is determined by fixed thresholds on the combined
score — `combined ≥ 50` yields `phishing`, `25 ≤ combined < 50` yields
`suspicious`, `combined < 25` yields `safe`, and the boundaries 50 and 25
deterministically resolve to the `≥` side.  `verdictOf` is the shared
threshold expression of the URL and email combiners. -/
theorem c4_thresholds :
    (∀ c : JsNum, 0 < c.den →
      (50 ≤ c.toRat → verdictOf c = "phishing") ∧
      (25 ≤ c.toRat ∧ c.toRat < 50 → verdictOf c = "suspicious") ∧
      (c.toRat < 25 → verdictOf c = "safe")) ∧
    verdictOf (JsNum.ofInt 50) = "phishing" ∧
    verdictOf (JsNum.ofInt 25) = "suspicious" := by
  have d50 : (0 : Int) < (JsNum.ofInt 50).den := by norm_num [JsNum.ofInt]
  have d25 : (0 : Int) < (JsNum.ofInt 25).den := by norm_num [JsNum.ofInt]
  have t50 : (JsNum.ofInt 50).toRat = 50 := by
    rw [JsNum.toRat_ofInt]; norm_num
  have t25 : (JsNum.ofInt 25).toRat = 25 := by
    rw [JsNum.toRat_ofInt]; norm_num
  refine ⟨?_, ?_, ?_⟩
  · intro c hc
    refine ⟨?_, ?_, ?_⟩
    · intro h
      have hb : (JsNum.ofInt 50).ble c = true :=
        (JsNum.ble_iff d50 hc).mpr (by rw [t50]; exact h)
      unfold verdictOf
      rw [if_pos hb]
    · rintro ⟨h1, h2⟩
      have hb50 : ¬ ((JsNum.ofInt 50).ble c = true) := by
        intro hb
        have := (JsNum.ble_iff d50 hc).mp hb
        rw [t50] at this
        linarith
      have hb25 : (JsNum.ofInt 25).ble c = true :=
        (JsNum.ble_iff d25 hc).mpr (by rw [t25]; exact h1)
      unfold verdictOf
      rw [if_neg hb50, if_pos hb25]
    · intro h
      have hb50 : ¬ ((JsNum.ofInt 50).ble c = true) := by
        intro hb
        have := (JsNum.ble_iff d50 hc).mp hb
        rw [t50] at this
        linarith
      have hb25 : ¬ ((JsNum.ofInt 25).ble c = true) := by
        intro hb
        have := (JsNum.ble_iff d25 hc).mp hb
        rw [t25] at this
        linarith
      unfold verdictOf
      rw [if_neg hb50, if_neg hb25]
  · decide
  · decide

/-- Witness for C4 at the boundary and interior points 50, 30 and 10. -/
theorem c4_witness :
    verdictOf (JsNum.ofInt 50) = "phishing" ∧
    verdictOf (JsNum.ofInt 30) = "suspicious" ∧
    verdictOf (JsNum.ofInt 10) = "safe" := by
  refine ⟨(c4_thresholds.1 (JsNum.ofInt 50) (by norm_num [JsNum.ofInt])).1 ?_,
    (c4_thresholds.1 (JsNum.ofInt 30) (by norm_num [JsNum.ofInt])).2.1 ⟨?_, ?_⟩,
    (c4_thresholds.1 (JsNum.ofInt 10) (by norm_num [JsNum.ofInt])).2.2 ?_⟩ <;>
      rw [JsNum.toRat_ofInt] <;> norm_num

/-- Claim C6: a URL on the known-safe domain list with zero triggered rules
(the heuristic score phase yields 0) gets the fixed low safe score 8, which
is not 0.  This is the safe branch of the logo analyzer, the component that
owns the known-safe domain list. -/
theorem c6_safe_floor (inp : LogoInput)
    (h1 : truthy inp.imageUrl = true)
    (h2 : hasSafeDomain (getStr inp.imageUrl) = true)
    (h3 : (logoScoreIssues inp).1 = 0) :
    (calcLogoHeuristic inp).verdict = "safe" ∧
    (calcLogoHeuristic inp).probability = 8 ∧ (8 : Int) ≠ 0 := by
  simp only [calcLogoHeuristic]
  rw [if_pos ⟨h1, h2, h3⟩]
  exact ⟨rfl, rfl, by decide⟩

/-- Witness for C6: an amazon.com-hosted image URL long enough to trigger
no rule. -/
theorem c6_witness :
    truthy (LogoInput.mk
      (some "https://www.amazon.com/images/brand/logos/primary-logo.png") none).imageUrl
      = true ∧
    hasSafeDomain (getStr (LogoInput.mk
      (some "https://www.amazon.com/images/brand/logos/primary-logo.png") none).imageUrl)
      = true ∧
    (logoScoreIssues (LogoInput.mk
      (some "https://www.amazon.com/images/brand/logos/primary-logo.png") none)).1 = 0 ∧
    (calcLogoHeuristic (LogoInput.mk
      (some "https://www.amazon.com/images/brand/logos/primary-logo.png") none)).verdict
      = "safe" ∧
    (calcLogoHeuristic (LogoInput.mk
      (some "https://www.amazon.com/images/brand/logos/primary-logo.png") none)).probability
      = 8 :=
  ⟨by decide, by decide, by decide,
    (c6_safe_floor _ (by decide) (by decide) (by decide)).1,
    (c6_safe_floor _ (by decide) (by decide) (by decide)).2.1⟩

/-- Claim C1 (counterexample): in the URL analyzer there is no brand-spoof
override.  The URL `https://paypal.example.com/` contains the brand keyword
`paypal` and its host is on none of PayPal's official domains, yet when the
oracle answers confident-safe, the analysis returns `safe` — the verdict
does depend on the weighted combination and on the oracle's answer. -/
theorem c1_counterexample :
    strIncludes (lowerStr "https://paypal.example.com/") "paypal" = true ∧
    domainFromUrl "https://paypal.example.com/" = "paypal.example.com" ∧
    ((legitimateDomains "paypal").all fun d =>
      !(strEndsWith (domainFromUrl "https://paypal.example.com/") d)) = true ∧
    okElim (fun r => r.result)
      (analyzeUrl "https://paypal.example.com/" true
        (.jsonOf ⟨false, some (JsNum.ofInt 100), none, none⟩) [] "t") = some "safe" ∧
    ("safe" : String) ≠ "phishing" := by
  refine ⟨by decide, by decide, by decide, by decide, by decide⟩

/-- Claim C1 (amended): the only brand-spoof override in the code is the
logo analyzer's PayPal shortcut — an image URL containing `paypal` whose
hostname does not contain `paypal` and whose URL does not contain
`paypal.com` forces the score to `max(score, 92)` and yields the
`phishing` verdict with probability at least 92. -/
theorem c1_amended (inp : LogoInput)
    (h1 : truthy inp.imageUrl = true)
    (h2 : strIncludes (lowerStr (getStr inp.imageUrl)) "paypal" = true)
    (h3 : strIncludes (domainFromUrl (getStr inp.imageUrl)) "paypal" = false)
    (h4 : strIncludes (getStr inp.imageUrl) "paypal.com" = false) :
    (calcLogoHeuristic inp).verdict = "phishing" ∧
    92 ≤ (calcLogoHeuristic inp).probability := by
  have hHosted : (if truthy inp.imageUrl = true
      then strIncludes (domainFromUrl (getStr inp.imageUrl)) "paypal" ||
        strIncludes (getStr inp.imageUrl) "paypal.com"
      else false) = false := by
    rw [if_pos h1, h3, h4]
    rfl
  have hsc : 92 ≤ (logoScoreIssues inp).1 := by
    simp only [logoScoreIssues]
    rw [if_pos ⟨h2, h1, hHosted⟩]
    exact le_max_right _ _
  have hne : (logoScoreIssues inp).1 ≠ 0 := by omega
  have hp : (92 : Int) ≤ min 95 (logoScoreIssues inp).1 :=
    le_min (by norm_num) hsc
  simp only [calcLogoHeuristic]
  rw [if_neg (fun h => hne h.2.2), if_neg hne]
  exact ⟨by rw [if_pos (by omega)], hp⟩

/-- Witness for C1 (amended): a non-PayPal-hosted image URL that mentions
PayPal. -/
theorem c1_witness :
    truthy (LogoInput.mk (some "http://img.evil.example/paypal-logo.png") none).imageUrl
      = true ∧
    strIncludes (lowerStr (getStr (LogoInput.mk
      (some "http://img.evil.example/paypal-logo.png") none).imageUrl)) "paypal" = true ∧
    strIncludes (domainFromUrl (getStr (LogoInput.mk
      (some "http://img.evil.example/paypal-logo.png") none).imageUrl)) "paypal" = false ∧
    strIncludes (getStr (LogoInput.mk
      (some "http://img.evil.example/paypal-logo.png") none).imageUrl) "paypal.com" = false ∧
    (calcLogoHeuristic (LogoInput.mk
      (some "http://img.evil.example/paypal-logo.png") none)).verdict = "phishing" ∧
    92 ≤ (calcLogoHeuristic (LogoInput.mk
      (some "http://img.evil.example/paypal-logo.png") none)).probability :=
  ⟨by decide, by decide, by decide, by decide,
    (c1_amended _ (by decide) (by decide) (by decide) (by decide)).1,
    (c1_amended _ (by decide) (by decide) (by decide) (by decide)).2⟩

/-- Claim C7 (counterexample): the unknown-override does not exist outside
the logo analyzer.  The URL `https://a.com` triggers zero rules (its rule
score is 0) and matches no known-safe domain, yet the URL analyzer resolves
it through the numeric thresholds to `safe`, not `unknown`. -/
theorem c7_counterexample :
    (calculateRiskScore (extractUrlFeatures "https://a.com")).score = JsNum.ofInt 0 ∧
    (calculateRiskScore (extractUrlFeatures "https://a.com")).threats = [] ∧
    hasSafeDomain "https://a.com" = false ∧
    okElim (fun r => r.result)
      (analyzeUrl "https://a.com" true
        (.jsonOf ⟨false, some (JsNum.ofInt 100), none, none⟩) [] "t") = some "safe" ∧
    ("safe" : String) ≠ "unknown" := by
  refine ⟨by decide, by decide, by decide, by decide, by decide⟩

/-- Claim C7 (amended): in the logo analyzer, an artifact with zero rule
signal that does not take the safe-domain branch gets verdict `unknown`
(probability 45), and a base64-only upload (no brand keyword is even
inspectable) gets verdict `unknown` with probability 30 — never `safe`. -/
theorem c7_amended :
    (∀ inp : LogoInput, (logoScoreIssues inp).1 = 0 →
      ¬(truthy inp.imageUrl = true ∧ hasSafeDomain (getStr inp.imageUrl) = true) →
      (calcLogoHeuristic inp).verdict = "unknown" ∧
      (calcLogoHeuristic inp).probability = 45) ∧
    (∀ b : String, b ≠ "" →
      (calcLogoHeuristic ⟨none, some b⟩).verdict = "unknown" ∧
      (calcLogoHeuristic ⟨none, some b⟩).probability = 30) := by
  constructor
  · intro inp h0 hns
    simp only [calcLogoHeuristic]
    rw [if_neg (fun h => hns ⟨h.1, h.2.1⟩), if_pos h0]
    exact ⟨rfl, rfl⟩
  · intro b hb
    have ht : truthy (some b) = true := by
      simp [truthy, hb]
    have hsc : logoScoreIssues ⟨none, some b⟩ =
        (30, ["Local/base64 image (source cannot be verified)"]) := by
      simp [logoScoreIssues, ht, getStr, lowerStr, strIncludes, containsSub, truthy, hb]
    simp only [calcLogoHeuristic]
    rw [if_neg (by rintro ⟨h, -⟩; simp [truthy] at h), if_neg (by rw [hsc]; norm_num)]
    rw [hsc]
    exact ⟨by norm_num, by norm_num⟩

/-- Witness for C7: an unrecognized image URL with zero signals, and a
base64-only upload. -/
theorem c7_witness :
    (logoScoreIssues (LogoInput.mk
      (some "https://example.org/assets/corporate-identity-logo-main.png") none)).1 = 0 ∧
    ¬(truthy (LogoInput.mk
        (some "https://example.org/assets/corporate-identity-logo-main.png") none).imageUrl
        = true ∧
      hasSafeDomain (getStr (LogoInput.mk
        (some "https://example.org/assets/corporate-identity-logo-main.png") none).imageUrl)
        = true) ∧
    (calcLogoHeuristic (LogoInput.mk
      (some "https://example.org/assets/corporate-identity-logo-main.png") none)).verdict
      = "unknown" ∧
    ("iVBORw0KGgoAAAANSUhEUg" : String) ≠ "" ∧
    (calcLogoHeuristic ⟨none, some "iVBORw0KGgoAAAANSUhEUg"⟩).verdict = "unknown" ∧
    (calcLogoHeuristic ⟨none, some "iVBORw0KGgoAAAANSUhEUg"⟩).probability = 30 :=
  ⟨by decide, by decide,
    (c7_amended.1 _ (by decide) (by decide)).1, by decide,
    (c7_amended.2 "iVBORw0KGgoAAAANSUhEUg" (by decide)).1,
    (c7_amended.2 "iVBORw0KGgoAAAANSUhEUg" (by decide)).2⟩

/-- Claim C2 (violation): for the URL `https://a.com` (rule score 0) with
the oracle answering `{isPhishing: true, confidence: 30}`, the hybrid URL
analyzer returns a successful result whose confidence is 111, above 100:
the non-safe branch computes `100 - finalConfidence + 50` with
`finalConfidence = round(max(combined, confidence)) = 39`. -/
theorem c2_bug :
    okElim (fun r => r.confidence)
      (analyzeUrl "https://a.com" true
        (.jsonOf ⟨true, some (JsNum.ofInt 30), none, none⟩) [] "t")
      = some ⟨111, 1⟩ ∧
    okElim (fun r => r.result)
      (analyzeUrl "https://a.com" true
        (.jsonOf ⟨true, some (JsNum.ofInt 30), none, none⟩) [] "t")
      = some "suspicious" ∧
    (JsNum.mk 111 1).toRat = 111 ∧ ¬((111 : ℚ) ≤ 100) := by
  refine ⟨by decide, by decide, ?_, by norm_num⟩
  norm_num [JsNum.toRat]

/-- Claim C3 (counterexample): a network-level oracle failure (the `fetch`
promise or the response-body read rejecting) is not absorbed: it escapes to
the URL analyzer's outer `catch`, which returns a 500 error response — the
failure is propagated to the caller instead of completing via the
rule-based path. -/
theorem c3_counterexample :
    isServerError (analyzeUrl "https://a.com" true OracleOutcome.netFail [] "t") = true ∧
    okElim (fun r => r.result) (analyzeUrl "https://a.com" true OracleOutcome.netFail [] "t")
      = none := by
  exact ⟨by decide, by decide⟩

/-- Claim C3 (amended): only a non-2xx oracle status degrades the URL
analyzer to the complete rule-based result (tagged `rule-based`); a 2xx
response whose JSON block fails to parse degrades to the neutral fallback
inside the still-`hybrid-ai` path; the email analyzer absorbs a non-2xx
status inline, keeping its `hybrid-email-ai` tag; but a network-level
failure is propagated as a 500 error by both. -/
theorem c3_amended (url : String) (hu : url ≠ "") (rand : List (Fin 256)) (now : String) :
    (∃ r, analyzeUrl url true .httpErr rand now = .ok r ∧
      r.method = "rule-based" ∧
      r.result = verdictOf (calculateRiskScore (extractUrlFeatures url)).score ∧
      r.ruleBasedScore = (calculateRiskScore (extractUrlFeatures url)).score ∧
      r.threatIndicators = (calculateRiskScore (extractUrlFeatures url)).threats) ∧
    (∃ r, analyzeUrl url true .badJson rand now = .ok r ∧ r.method = "hybrid-ai") ∧
    (∀ sender subject body f, sender ≠ "" → subject ≠ "" → body ≠ "" →
      ∃ r, analyzeEmail sender subject body f true .httpErr rand now = .ok r ∧
        r.method = "hybrid-email-ai") ∧
    isServerError (analyzeUrl url true .netFail rand now) = true := by
  refine ⟨?_, ?_, ?_, ?_⟩
  · unfold analyzeUrl
    rw [if_neg hu]
    exact ⟨_, rfl, rfl, rfl, rfl, rfl⟩
  · unfold analyzeUrl
    rw [if_neg hu]
    exact ⟨_, rfl, rfl⟩
  · intro sender subject body f hs hb hj
    unfold analyzeEmail
    rw [if_neg (by simp [hs, hb, hj])]
    exact ⟨_, rfl, rfl⟩
  · unfold analyzeUrl
    rw [if_neg hu]
    rfl

/-- Witness for C3 (amended) at concrete inputs. -/
theorem c3_witness :
    ("https://a.com" : String) ≠ "" ∧
    (∃ r, analyzeUrl "https://a.com" true .httpErr [] "t" = .ok r ∧
      r.method = "rule-based" ∧
      r.result = verdictOf (calculateRiskScore (extractUrlFeatures "https://a.com")).score ∧
      r.ruleBasedScore = (calculateRiskScore (extractUrlFeatures "https://a.com")).score ∧
      r.threatIndicators = (calculateRiskScore (extractUrlFeatures "https://a.com")).threats) ∧
    (∃ r, analyzeEmail "a@b.c" "s" "b"
        ⟨"b.c", "a", false, false, 0, false, false, false, 0, [], false, false, false, [],
          100, 50⟩ true .httpErr [] "t" = .ok r ∧
      r.method = "hybrid-email-ai") :=
  ⟨by decide,
    (c3_amended "https://a.com" (by decide) [] "t").1,
    (c3_amended "https://a.com" (by decide) [] "t").2.2.1 "a@b.c" "s" "b" _
      (by decide) (by decide) (by decide)⟩

/-- Claim C5 (counterexample): the oracle-signal mapping is not
`50 + confidence/2` at every confidence in 0..100 — at confidence 0 the
code's `confidence || 50` substitutes the default 50, so a positive call
maps to 75, not to `50 + 0/2 = 50`. -/
theorem c5_counterexample :
    aiScoreOf true (some (JsNum.ofInt 0)) = ⟨150, 2⟩ ∧
    (JsNum.mk 150 2).toRat = 75 ∧ ¬((75 : ℚ) = 50 + 0 / 2) := by
  refine ⟨by decide, ?_, by norm_num⟩
  norm_num [JsNum.toRat]

/-- Claim C5 (amended): for every nonzero confidence (in particular all of
1..100), a positive oracle call maps to `50 + confidence/2` and a negative
one to `50 - confidence/2`; a zero or missing confidence is first replaced
by the default 50 (mapping to 75 or 25); and the handler's combined score
and verdict are exactly `ruleScore·(2/5) + oracleScaled·(3/5)` fed through
the fixed thresholds. -/
theorem c5_amended :
    (∀ c : JsNum, 0 < c.den → c.toRat ≠ 0 →
      (aiScoreOf true (some c)).toRat = 50 + c.toRat / 2 ∧
      (aiScoreOf false (some c)).toRat = 50 - c.toRat / 2) ∧
    ((aiScoreOf true none).toRat = 75 ∧ (aiScoreOf false none).toRat = 25 ∧
      (aiScoreOf true (some (JsNum.ofInt 0))).toRat = 75 ∧
      (aiScoreOf false (some (JsNum.ofInt 0))).toRat = 25) ∧
    ((JsNum.mk 2 5).toRat = 2 / 5 ∧ (JsNum.mk 3 5).toRat = 3 / 5) ∧
    (∀ x y : JsNum, 0 < x.den → 0 < y.den →
      ((x.mul ⟨2, 5⟩).add (y.mul ⟨3, 5⟩)).toRat = x.toRat * (2 / 5) + y.toRat * (3 / 5)) ∧
    (∀ url a rand now, url ≠ "" →
      ∃ r, analyzeUrl url true (.jsonOf a) rand now = .ok r ∧
        r.combinedScore = some (JsNum.round
          (((calculateRiskScore (extractUrlFeatures url)).score.mul ⟨2, 5⟩).add
            ((aiScoreOf a.isPhishing a.confidence).mul ⟨3, 5⟩))) ∧
        r.result = verdictOf
          (((calculateRiskScore (extractUrlFeatures url)).score.mul ⟨2, 5⟩).add
            ((aiScoreOf a.isPhishing a.confidence).mul ⟨3, 5⟩))) := by
  refine ⟨?_, ?_, ?_, ?_, ?_⟩
  · intro c hd hz
    have hnum : c.num ≠ 0 := by
      intro h
      apply hz
      rw [JsNum.toRat, h]
      norm_num
    have horD : JsNum.orD (some c) (JsNum.ofInt 50) = c := by
      simp only [JsNum.orD, JsNum.beqv, JsNum.ofInt]
      rw [if_neg]
      simp only [decide_eq_true_iff]
      intro h
      omega
    have d2 : (0 : Int) < (JsNum.ofInt 2).num := by norm_num [JsNum.ofInt]
    have dd2 : (0 : Int) < (JsNum.ofInt 2).den := by norm_num [JsNum.ofInt]
    have d50 : (0 : Int) < (JsNum.ofInt 50).den := by norm_num [JsNum.ofInt]
    have hdiv : (c.div (JsNum.ofInt 2)).toRat = c.toRat / 2 := by
      rw [JsNum.toRat_div_pos hd dd2 d2, JsNum.toRat_ofInt]
      norm_num
    have hddiv : 0 < (c.div (JsNum.ofInt 2)).den := JsNum.den_div_pos hd d2
    constructor
    · rw [aiScoreOf, if_pos rfl, horD, JsNum.toRat_add d50 hddiv, hdiv, JsNum.toRat_ofInt]
      norm_num
    · rw [aiScoreOf, if_neg (by simp), horD, JsNum.toRat_sub d50 hddiv, hdiv,
        JsNum.toRat_ofInt]
      norm_num
  · refine ⟨?_, ?_, ?_, ?_⟩
    · rw [show aiScoreOf true none = (⟨150, 2⟩ : JsNum) from by decide]
      norm_num [JsNum.toRat]
    · rw [show aiScoreOf false none = (⟨50, 2⟩ : JsNum) from by decide]
      norm_num [JsNum.toRat]
    · rw [show aiScoreOf true (some (JsNum.ofInt 0)) = (⟨150, 2⟩ : JsNum) from by decide]
      norm_num [JsNum.toRat]
    · rw [show aiScoreOf false (some (JsNum.ofInt 0)) = (⟨50, 2⟩ : JsNum) from by decide]
      norm_num [JsNum.toRat]
  · constructor <;> norm_num [JsNum.toRat]
  · intro x y hx hy
    have h25 : (0 : Int) < (JsNum.mk 2 5).den := by norm_num
    have h35 : (0 : Int) < (JsNum.mk 3 5).den := by norm_num
    rw [JsNum.toRat_add (JsNum.den_mul hx h25) (JsNum.den_mul hy h35),
      JsNum.toRat_mul hx h25, JsNum.toRat_mul hy h35]
    norm_num [JsNum.toRat]
  · intro url a rand now hu
    unfold analyzeUrl urlHybridResponse
    rw [if_neg hu]
    exact ⟨_, rfl, rfl, rfl⟩

/-- Witness for C5 (amended) at confidence 40 and a concrete handler run. -/
theorem c5_witness :
    (0 : Int) < (JsNum.ofInt 40).den ∧ (JsNum.ofInt 40).toRat ≠ 0 ∧
    (aiScoreOf true (some (JsNum.ofInt 40))).toRat = 50 + (JsNum.ofInt 40).toRat / 2 ∧
    ("https://a.com" : String) ≠ "" ∧
    (∃ r, analyzeUrl "https://a.com" true (.jsonOf ⟨false, none, none, none⟩) [] "t"
        = .ok r ∧
      r.combinedScore = some (JsNum.round
        (((calculateRiskScore (extractUrlFeatures "https://a.com")).score.mul ⟨2, 5⟩).add
          ((aiScoreOf false none).mul ⟨3, 5⟩))) ∧
      r.result = verdictOf
        (((calculateRiskScore (extractUrlFeatures "https://a.com")).score.mul ⟨2, 5⟩).add
          ((aiScoreOf false none).mul ⟨3, 5⟩))) :=
  ⟨by norm_num [JsNum.ofInt], by norm_num [JsNum.toRat, JsNum.ofInt],
    (c5_amended.1 (JsNum.ofInt 40) (by norm_num [JsNum.ofInt])
      (by norm_num [JsNum.toRat, JsNum.ofInt])).1,
    by decide,
    c5_amended.2.2.2.2 "https://a.com" ⟨false, none, none, none⟩ [] "t" (by decide)⟩

/-- Claim C8 (counterexample): the indicator list is not truncated to a
fixed maximum in every result.  With the oracle supplying nine additional
threats, the URL analyzer returns 10 deduplicated indicators, while the
email analyzer caps its list at 8 (`[...new Set(...)].slice(0, 8)`) — the
URL and logo analyzers apply no truncation at all. -/
theorem c8_counterexample :
    okElim (fun r => r.threatIndicators.length)
      (analyzeUrl "https://paypal.example.com/" true
        (.jsonOf ⟨true, some (JsNum.ofInt 100), none,
          some ["t1", "t2", "t3", "t4", "t5", "t6", "t7", "t8", "t9"]⟩) [] "t")
      = some 10 ∧
    okElim (fun r => r.threatIndicators.length)
      (analyzeEmail "a@b.c" "s" "b"
        ⟨"b.c", "a", false, false, 0, false, false, false, 0, [], false, false, false, [],
          100, 50⟩ true
        (.jsonOf ⟨true, some (JsNum.ofInt 100), none,
          some ["t1", "t2", "t3", "t4", "t5", "t6", "t7", "t8", "t9", "t10"], none⟩) [] "t")
      = some 8 ∧
    ¬((10 : Nat) ≤ 8) := by
  refine ⟨by decide, by decide, by decide⟩

/-- Claim C8 (amended): every returned indicator list is deduplicated by
exact string match with first occurrences kept in order (the `[...new
Set(xs)]` model is duplicate-free, is a sublist of its input, and keeps
exactly the input's elements); only the email analyzer truncates, to at
most 8 entries — the URL and logo analyzers return the full deduplicated
list. -/
theorem c8_amended :
    (∀ xs : List String, (dedupF xs).Nodup ∧ List.Sublist (dedupF xs) xs ∧
      ∀ a : String, a ∈ dedupF xs ↔ a ∈ xs) ∧
    (∀ sender subject body f a rand now,
      sender ≠ "" → subject ≠ "" → body ≠ "" →
      ∃ r, analyzeEmail sender subject body f true (.jsonOf a) rand now = .ok r ∧
        r.threatIndicators.Nodup ∧ r.threatIndicators.length ≤ 8) ∧
    (∀ url a rand now, url ≠ "" →
      ∃ r, analyzeUrl url true (.jsonOf a) rand now = .ok r ∧
        r.threatIndicators.Nodup) ∧
    (∀ inp rand now, truthy inp.imageUrl = true ∨ truthy inp.base64Image = true →
      ∃ r, analyzeLogo inp rand now = .ok r ∧ r.threatIndicators.Nodup) := by
  refine ⟨?_, ?_, ?_, ?_⟩
  · intro xs
    exact ⟨dedupF_nodup xs, dedupF_sublist xs, fun a => dedupF_mem a xs⟩
  · intro sender subject body f a rand now hs hb hj
    unfold analyzeEmail
    rw [if_neg (by simp [hs, hb, hj])]
    refine ⟨_, rfl, ?_, ?_⟩
    · exact (List.Sublist.nodup (List.take_sublist 8 _) (dedupF_nodup _))
    · rw [List.length_take]
      omega
  · intro url a rand now hu
    unfold analyzeUrl urlHybridResponse
    rw [if_neg hu]
    exact ⟨_, rfl, dedupF_nodup _⟩
  · intro inp rand now h
    unfold analyzeLogo
    rw [if_neg (by rintro ⟨h1, h2⟩; rcases h with h | h <;> simp_all)]
    exact ⟨_, rfl, dedupF_nodup _⟩

/-- Witness for C8 (amended) at concrete inputs. -/
theorem c8_witness :
    (dedupF ["a", "b", "a"]).Nodup ∧
    (∃ r, analyzeEmail "a@b.c" "s" "b"
        ⟨"b.c", "a", false, false, 0, false, false, false, 0, [], false, false, false, [],
          100, 50⟩ true
        (.jsonOf ⟨false, some (JsNum.ofInt 50), some "", some [], some []⟩) [] "t"
        = .ok r ∧
      r.threatIndicators.Nodup ∧ r.threatIndicators.length ≤ 8) ∧
    (∃ r, analyzeLogo ⟨some "https://example.org/logo.png", none⟩ [] "t" = .ok r ∧
      r.threatIndicators.Nodup) :=
  ⟨(c8_amended.1 ["a", "b", "a"]).1,
    c8_amended.2.1 "a@b.c" "s" "b" _ _ [] "t" (by decide) (by decide) (by decide),
    c8_amended.2.2.2 ⟨some "https://example.org/logo.png", none⟩ [] "t"
      (Or.inl (by decide))⟩

/-- Claim C9 (counterexample): the digit ratio is not 0 at the empty
string — the source divides unconditionally, and JavaScript `0/0` is `NaN`
(modelled `none`), not `0`.  (The handler rejects the empty URL before
extraction, so this corner is unreachable through the request path.) -/
theorem c9_counterexample :
    digitRatioOf (extractUrlFeatures "") = none ∧
    (none : Option ℚ) ≠ some 0 ∧
    (extractUrlFeatures "").domainLength = 0 := by
  refine ⟨by decide, by decide, by decide⟩

/-- Claim C9 (amended): URL feature extraction is total — on any input the
parser rejects, it returns the lexical record over the raw string with the
structural fields (domain length, path length, query length, subdomain
count, port flag) in their sentinel empty state, and the digit ratio equals
digit count over string length for every nonempty string; at the empty
string the unconditional division yields NaN (`none`) rather than 0. -/
theorem c9_amended (s : String) (hp : parseUrl (withScheme s) = none) :
    (extractUrlFeatures s).domainLength = 0 ∧
    (extractUrlFeatures s).pathLength = 0 ∧
    (extractUrlFeatures s).queryLength = 0 ∧
    (extractUrlFeatures s).numSubdomains = 0 ∧
    (extractUrlFeatures s).hasPortNumber = false ∧
    (extractUrlFeatures s).length = s.data.length ∧
    (extractUrlFeatures s).numDigits = countDigits s ∧
    (0 < s.data.length →
      digitRatioOf (extractUrlFeatures s)
        = some ((countDigits s : ℚ) / (s.data.length : ℚ))) := by
  have hf : extractUrlFeatures s =
      { length := s.data.length
        numDots := countChar s '.'
        numHyphens := countChar s '-'
        numUnderscores := countChar s '_'
        numSlashes := countChar s '/'
        numDigits := countDigits s
        numAtSymbols := countChar s '@'
        hasHttps := false
        hasIpAddress := hasIpLiteral s
        hasSuspiciousTld := urlSuspiciousTlds.any fun tld => strIncludes (lowerStr s) tld
        hasSuspiciousKeywords :=
          urlSuspiciousKeywords.any fun kw => strIncludes (lowerStr s) kw
        hasEncodedChars := hasEncodedChar s
        domainLength := 0
        pathLength := 0
        queryLength := 0
        numSubdomains := 0
        hasPortNumber := false
        suspiciousKeywords :=
          urlSuspiciousKeywords.filter fun kw => strIncludes (lowerStr s) kw
        entropyGt45 := entropyGt45 s } := by
    unfold extractUrlFeatures
    rw [hp]
  rw [hf]
  refine ⟨rfl, rfl, rfl, rfl, rfl, rfl, rfl, ?_⟩
  intro hl
  simp only [digitRatioOf]
  rw [if_neg (by omega)]

/-- Witness for C9 (amended): a raw string the URL parser rejects. -/
theorem c9_witness :
    parseUrl (withScheme "not a url") = none ∧
    (extractUrlFeatures "not a url").domainLength = 0 ∧
    (extractUrlFeatures "not a url").numSubdomains = 0 ∧
    (extractUrlFeatures "not a url").hasPortNumber = false ∧
    (0 < ("not a url" : String).data.length →
      digitRatioOf (extractUrlFeatures "not a url")
        = some ((countDigits "not a url" : ℚ) / (("not a url" : String).data.length : ℚ))) :=
  ⟨by decide,
    (c9_amended "not a url" (by decide)).1,
    (c9_amended "not a url" (by decide)).2.2.2.1,
    (c9_amended "not a url" (by decide)).2.2.2.2.1,
    (c9_amended "not a url" (by decide)).2.2.2.2.2.2.2⟩

theorem flatten_hexPair_length (rand : List (Fin 256)) :
    ((rand.map hexPair).flatten).length = 2 * rand.length := by
  induction rand with
  | nil => rfl
  | cons b t ih =>
    simp only [List.map_cons, List.flatten_cons, List.length_append, ih,
      List.length_cons, hexPair]
    simp
    omega

/-- Claim C10 (counterexample): not every successful result carries the
integrity tag — the URL analyzer's degraded (oracle non-2xx, rule-based
only) response is a success that contains no `blockchainHash` and no
`timestamp` field. -/
theorem c10_counterexample :
    okElim (fun r => (r.method, r.blockchainHash, r.timestamp))
      (analyzeUrl "https://a.com" true .httpErr [] "t")
      = some ("rule-based", none, none) := by
  decide

/-- Claim C10 (amended): every logo and email success and every hybrid URL
success carries the opaque tag `0x` followed by the hex expansion of the 32
random bytes (so 66 characters for a 32-byte draw); only the URL analyzer's
degraded rule-based response omits it. -/
theorem c10_amended :
    (∀ rand : List (Fin 256), (blockchainHashOf rand).length = 2 + 2 * rand.length) ∧
    (∀ url a rand now, url ≠ "" →
      ∃ r, analyzeUrl url true (.jsonOf a) rand now = .ok r ∧
        r.blockchainHash = some (blockchainHashOf rand) ∧ r.timestamp = some now) ∧
    (∀ sender subject body f a rand now,
      sender ≠ "" → subject ≠ "" → body ≠ "" →
      ∃ r, analyzeEmail sender subject body f true (.jsonOf a) rand now = .ok r ∧
        r.blockchainHash = blockchainHashOf rand) ∧
    (∀ inp rand now, truthy inp.imageUrl = true ∨ truthy inp.base64Image = true →
      ∃ r, analyzeLogo inp rand now = .ok r ∧
        r.blockchainHash = blockchainHashOf rand) := by
  refine ⟨?_, ?_, ?_, ?_⟩
  · intro rand
    show ('0' :: 'x' :: (rand.map hexPair).flatten).length = 2 + 2 * rand.length
    rw [List.length_cons, List.length_cons, flatten_hexPair_length]
    omega
  · intro url a rand now hu
    unfold analyzeUrl urlHybridResponse
    rw [if_neg hu]
    exact ⟨_, rfl, rfl, rfl⟩
  · intro sender subject body f a rand now hs hb hj
    unfold analyzeEmail
    rw [if_neg (by simp [hs, hb, hj])]
    exact ⟨_, rfl, rfl⟩
  · intro inp rand now h
    unfold analyzeLogo
    rw [if_neg (by rintro ⟨h1, h2⟩; rcases h with h | h <;> simp_all)]
    exact ⟨_, rfl, rfl⟩

/-- Witness for C10 (amended): a 32-byte draw gives a 66-character tag, and
concrete successful runs of all three analyzers carry it. -/
theorem c10_witness :
    (blockchainHashOf (List.replicate 32 (0 : Fin 256))).length = 66 ∧
    (∃ r, analyzeUrl "https://a.com" true
        (.jsonOf ⟨false, none, none, none⟩) (List.replicate 32 (0 : Fin 256)) "t"
        = .ok r ∧
      r.blockchainHash = some (blockchainHashOf (List.replicate 32 (0 : Fin 256))) ∧
      r.timestamp = some "t") ∧
    (∃ r, analyzeEmail "a@b.c" "s" "b"
        ⟨"b.c", "a", false, false, 0, false, false, false, 0, [], false, false, false, [],
          100, 50⟩ true
        (.jsonOf ⟨false, some (JsNum.ofInt 50), some "", some [], some []⟩)
        (List.replicate 32 (0 : Fin 256)) "t" = .ok r ∧
      r.blockchainHash = blockchainHashOf (List.replicate 32 (0 : Fin 256))) ∧
    (∃ r, analyzeLogo ⟨none, some "iVBORw0KGgoAAAANSUhEUg"⟩
        (List.replicate 32 (0 : Fin 256)) "t" = .ok r ∧
      r.blockchainHash = blockchainHashOf (List.replicate 32 (0 : Fin 256))) :=
  ⟨by rw [c10_amended.1 (List.replicate 32 (0 : Fin 256))]; simp,
    c10_amended.2.1 "https://a.com" ⟨false, none, none, none⟩ _ "t" (by decide),
    c10_amended.2.2.1 "a@b.c" "s" "b" _ _ _ "t" (by decide) (by decide) (by decide),
    c10_amended.2.2.2 ⟨none, some "iVBORw0KGgoAAAANSUhEUg"⟩ _ "t"
      (Or.inr (by decide))⟩

end SecureGrid
